import Mathlib

/-!
Verification development for the tboard backend.

The definitions below are a shallow embedding of the Python source of the
repository: Decimal and float arithmetic is modelled by exact rationals,
database rows by records, tables by lists or by functions from primary keys
to optional rows, and fallible operations by Bool results or Except values.
Each definition carries the name of the source function it embeds.
-/

/-! ## Rock-paper-scissors engine (backend/games/rps.py) -/

/-- The three literal RPS choices accepted by RPSGameEngine.VALID_MOVES. -/
inductive Move
  | rock
  | paper
  | scissors
deriving DecidableEq, Repr

/-- The non-None results of RPSGameEngine.check_round_end: the strings
"draw", "player1", "player2" of the source. -/
inductive RoundResult
  | draw
  | player1
  | player2
deriving DecidableEq, Repr

/-- The RPS game-state dict of the source. The "moves" dict keyed by
"player1"/"player2" is modelled by two optional slots. -/
structure RPSState where
  status : String
  movesP1 : Option Move
  movesP2 : Option Move
  scoreP1 : Nat
  scoreP2 : Nat
  rounds_played : Nat
deriving DecidableEq, Repr

/-- RPSGameEngine.WINS_NEEDED. -/
def WINS_NEEDED : Nat := 3

/-- RPSGameEngine.get_initial_state. -/
def get_initial_state : RPSState :=
  { status := "playing", movesP1 := none, movesP2 := none,
    scoreP1 := 0, scoreP2 := 0, rounds_played := 0 }

/-- The winning-move disjunction of RPSGameEngine.check_round_end:
rock beats scissors, paper beats rock, scissors beats paper. -/
def beatsMove (m1 m2 : Move) : Bool :=
  (m1 == Move.rock && m2 == Move.scissors) ||
  (m1 == Move.paper && m2 == Move.rock) ||
  (m1 == Move.scissors && m2 == Move.paper)

/-- RPSGameEngine.check_round_end: None until both slots have moved, then
draw on identical moves, otherwise the slot that played the beating move. -/
def check_round_end (st : RPSState) : Option RoundResult :=
  match st.movesP1, st.movesP2 with
  | some m1, some m2 =>
    if m1 = m2 then some RoundResult.draw
    else if beatsMove m1 m2 then some RoundResult.player1
    else some RoundResult.player2
  | _, _ => none

/-- The fixed 9-entry round-resolution table as the spec states it
(rock/rock to draw, rock/scissors to player1, rock/paper to player2, and so
on); written from the spec text, to be compared with check_round_end. -/
def specRoundTable (m1 m2 : Move) : RoundResult :=
  match m1, m2 with
  | Move.rock, Move.rock => RoundResult.draw
  | Move.rock, Move.scissors => RoundResult.player1
  | Move.rock, Move.paper => RoundResult.player2
  | Move.paper, Move.paper => RoundResult.draw
  | Move.paper, Move.rock => RoundResult.player1
  | Move.paper, Move.scissors => RoundResult.player2
  | Move.scissors, Move.scissors => RoundResult.draw
  | Move.scissors, Move.paper => RoundResult.player1
  | Move.scissors, Move.rock => RoundResult.player2

/-! ## Matchmaking (backend/managers/game_manager.py) -/

/-- PendingMatchRequest: user id, game type and stake of one wait-queue
entry (the float stake is modelled as an exact rational). -/
structure PendingMatchRequest where
  user_id : Nat
  game_type : String
  stake : ℚ
deriving DecidableEq, Repr

/-- The match predicate of GameManager._attempt_matchmaking: identical
game_type and identical stake. -/
def matchesAnchor (p1 p2 : PendingMatchRequest) : Bool :=
  p1.game_type == p2.game_type && p1.stake == p2.stake

/-- The inner scan of GameManager._attempt_matchmaking: walk the queue
behind the anchor accumulating skipped entries (temp_queue) until the first
compatible request; return (skipped, partner, remaining queue) on a hit. -/
def findFirstMatch (anchor : PendingMatchRequest) :
    List PendingMatchRequest →
    Option (List PendingMatchRequest × PendingMatchRequest × List PendingMatchRequest)
  | [] => none
  | q :: rest =>
    if matchesAnchor anchor q then some ([], q, rest)
    else
      match findFirstMatch anchor rest with
      | some (skipped, partner, remaining) => some (q :: skipped, partner, remaining)
      | none => none

/-- Length bookkeeping for findFirstMatch, needed for the termination of
the outer matchmaking loop. -/
def findFirstMatch_length :
    ∀ (anchor : PendingMatchRequest) (q skipped remaining : List PendingMatchRequest)
      (partner : PendingMatchRequest),
      findFirstMatch anchor q = some (skipped, partner, remaining) →
      q.length = skipped.length + remaining.length + 1 := by
  intro anchor q
  induction q with
  | nil =>
    intro skipped remaining partner h
    simp [findFirstMatch] at h
  | cons x rest ih =>
    intro skipped remaining partner h
    rw [findFirstMatch] at h
    by_cases hm : matchesAnchor anchor x
    · rw [if_pos hm] at h
      simp only [Option.some.injEq, Prod.mk.injEq] at h
      obtain ⟨h1, h2, h3⟩ := h
      subst h1; subst h3
      simp
    · rw [if_neg hm] at h
      cases hfr : findFirstMatch anchor rest with
      | none => rw [hfr] at h; cases h
      | some t =>
        obtain ⟨sk2, p2, rem2⟩ := t
        rw [hfr] at h
        simp only [Option.some.injEq, Prod.mk.injEq] at h
        obtain ⟨h1, h2, h3⟩ := h
        subst h1; subst h3
        have hlen := ih sk2 rem2 p2 hfr
        simp only [List.length_cons, hlen]
        omega

/-- The outer while loop of GameManager._attempt_matchmaking: while at
least two requests wait, dequeue an anchor and scan for a partner; on a hit
record the pair, reinsert the skipped entries behind the remaining ones and
continue; on a miss reinsert the anchor at the back and stop. Returns the
matched pairs and the final queue. -/
def attemptMatchmaking :
    (queue : List PendingMatchRequest) →
    List (PendingMatchRequest × PendingMatchRequest) × List PendingMatchRequest
  | [] => ([], [])
  | [r] => ([], [r])
  | anchor :: tail =>
    match hf : findFirstMatch anchor tail with
    | some (skipped, partner, remaining) =>
      have hlt : (remaining ++ skipped).length < (anchor :: tail).length := by
        have hlen := findFirstMatch_length anchor tail skipped remaining partner hf
        simp only [List.length_append, List.length_cons]
        omega
      let next := attemptMatchmaking (remaining ++ skipped)
      ((anchor, partner) :: next.1, next.2)
    | none => ([], tail ++ [anchor])
termination_by queue => queue.length
decreasing_by
  simp only [List.length_append, List.length_cons] at hlt ⊢
  omega

/-! ## Internal currency ledger (backend/services/coin_service.py) -/

/-- The users-table columns touched by the coin and settlement services.
balance_coins is nullable in the schema, hence optional here. -/
structure UserRow where
  id : Nat
  balance_coins : Option ℚ
  total_games_played : Nat
  total_wins : Nat
  total_losses : Nat
  total_won_ton : ℚ
deriving DecidableEq, Repr

/-- One coin_transactions row (CoinTransaction model). -/
structure CoinTransaction where
  user_id : Nat
  amount : ℚ
  transaction_type : String
  description : Option String
  related_game_id : Option Nat
  balance_before : ℚ
  balance_after : ℚ
deriving DecidableEq, Repr

/-- One daily_rewards row (DailyReward model); reward_date is a calendar
day modelled as an integer day index. -/
structure DailyReward where
  user_id : Nat
  reward_date : Int
  coins_earned : ℚ
  streak_days : Nat
deriving DecidableEq, Repr

/-- The committed database state seen by CoinService: the users table as a
map from id to row, plus the append-only transaction and reward tables. -/
structure DB where
  users : Nat → Option UserRow
  transactions : List CoinTransaction
  daily_rewards : List DailyReward

/-- CoinService.INITIAL_BONUS. -/
def INITIAL_BONUS : ℚ := 1000

/-- CoinService.DAILY_REWARD_BASE. -/
def DAILY_REWARD_BASE : ℚ := 100

/-- CoinService.DAILY_REWARD_STREAK_BONUS. -/
def DAILY_REWARD_STREAK_BONUS : ℚ := 50

/-- CoinService.MAX_STREAK_BONUS. -/
def MAX_STREAK_BONUS : Nat := 7

/-- The UPDATE users SET balance_coins = b WHERE id = uid statement issued
by add_coins and deduct_coins. -/
def DB.setUserBalance (db : DB) (uid : Nat) (b : ℚ) : DB :=
  { db with
    users := fun u =>
      if u = uid then (db.users u).map (fun row => { row with balance_coins := some b })
      else db.users u }

/-- CoinService.add_coins: read the current balance (0 when unset), write
the new balance and append a ledger entry in one transaction; reports
failure without mutation when the user row is missing. -/
def add_coins (db : DB) (user_id : Nat) (amount : ℚ) (transaction_type : String)
    (description : Option String) (related_game_id : Option Nat) : Bool × DB :=
  match db.users user_id with
  | none => (false, db)
  | some user =>
    let balance_before := user.balance_coins.getD 0
    let balance_after := balance_before + amount
    let db1 := db.setUserBalance user_id balance_after
    let tx : CoinTransaction :=
      { user_id := user_id, amount := amount, transaction_type := transaction_type,
        description := description, related_game_id := related_game_id,
        balance_before := balance_before, balance_after := balance_after }
    (true, { db1 with transactions := db1.transactions ++ [tx] })

/-- CoinService.deduct_coins: like add_coins with a negated ledger amount,
but fails without mutation when the current balance is below the requested
amount. -/
def deduct_coins (db : DB) (user_id : Nat) (amount : ℚ) (transaction_type : String)
    (description : Option String) (related_game_id : Option Nat) : Bool × DB :=
  match db.users user_id with
  | none => (false, db)
  | some user =>
    let balance_before := user.balance_coins.getD 0
    if balance_before < amount then (false, db)
    else
      let balance_after := balance_before - amount
      let db1 := db.setUserBalance user_id balance_after
      let tx : CoinTransaction :=
        { user_id := user_id, amount := -amount, transaction_type := transaction_type,
          description := description, related_game_id := related_game_id,
          balance_before := balance_before, balance_after := balance_after }
      (true, { db1 with transactions := db1.transactions ++ [tx] })

/-- An abstract credit or debit request against the ledger service. -/
inductive LedgerOp
  | add (user_id : Nat) (amount : ℚ) (transaction_type : String)
  | deduct (user_id : Nat) (amount : ℚ) (transaction_type : String)

/-- Run one ledger operation, keeping the committed state. -/
def applyOp (db : DB) : LedgerOp → DB
  | LedgerOp.add uid amt t => (add_coins db uid amt t none none).2
  | LedgerOp.deduct uid amt t => (deduct_coins db uid amt t none none).2

/-- Run a sequence of ledger operations. -/
def applyOps (db : DB) (ops : List LedgerOp) : DB := ops.foldl applyOp db

/-- The ledger entries of one account, oldest first. -/
def txFor (db : DB) (uid : Nat) : List CoinTransaction :=
  db.transactions.filter (fun t => t.user_id == uid)

/-- The stored internal-currency balance of an account (0 when the column
is NULL), or none when the account row is missing. -/
def DB.balanceOf (db : DB) (uid : Nat) : Option ℚ :=
  (db.users uid).map (fun u => u.balance_coins.getD 0)

/-- The account balance agrees with the balance_after of the most recent
ledger entry of that account, whenever such an entry exists. -/
def ledgerConsistent (db : DB) (uid : Nat) : Prop :=
  ∀ t, (txFor db uid).getLast? = some t → db.balanceOf uid = some t.balance_after

/-- Result dict of CoinService.claim_daily_reward. -/
structure ClaimResult where
  success : Bool
  coins_earned : ℚ
  streak_days : Nat
  message : String
deriving DecidableEq, Repr

/-- The daily_rewards rows of one account. -/
def rewardsFor (db : DB) (uid : Nat) : List DailyReward :=
  db.daily_rewards.filter (fun r => r.user_id == uid)

/-- The ORDER BY reward_date DESC LIMIT 1 query of claim_daily_reward and
get_streak_info: the row with the greatest reward date. -/
def latestReward (rs : List DailyReward) : Option DailyReward :=
  rs.foldl
    (fun acc r =>
      match acc with
      | none => some r
      | some a => if a.reward_date < r.reward_date then some r else some a)
    none

/-- CoinService.claim_daily_reward at calendar day `today`: fail when a
record for today exists; otherwise continue the streak (capped at
MAX_STREAK_BONUS) when the latest record is dated yesterday, else restart
at 1; compute the reward amount and credit it via add_coins with type
daily_bonus. The staged DailyReward row only becomes durable through the
commit inside add_coins, so on a failed credit neither table changes; the
Bool returned by add_coins is not consulted for the result, mirroring the
source. -/
def claim_daily_reward (db : DB) (user_id : Nat) (today : Int) : ClaimResult × DB :=
  if (rewardsFor db user_id).any (fun r => r.reward_date == today) then
    ({ success := false, coins_earned := 0, streak_days := 0,
       message := "Already claimed today" }, db)
  else
    let last := latestReward (rewardsFor db user_id)
    let streak_days : Nat :=
      match last with
      | some l =>
        if l.reward_date == today - 1 then min (l.streak_days + 1) MAX_STREAK_BONUS else 1
      | none => 1
    let coins_earned : ℚ :=
      if 1 < streak_days then
        DAILY_REWARD_BASE + DAILY_REWARD_STREAK_BONUS * ((streak_days - 1 : Nat) : ℚ)
      else DAILY_REWARD_BASE
    let reward : DailyReward :=
      { user_id := user_id, reward_date := today,
        coins_earned := coins_earned, streak_days := streak_days }
    let step := add_coins db user_id coins_earned "daily_bonus" (some "Daily reward") none
    let db2 :=
      if step.1 then { step.2 with daily_rewards := step.2.daily_rewards ++ [reward] }
      else db
    ({ success := true, coins_earned := coins_earned, streak_days := streak_days,
       message := "Claimed" }, db2)

/-- CoinService.get_streak_info: (current streak, can-claim-today). The
streak counts only when the latest record is dated today or yesterday. -/
def get_streak_info (db : DB) (user_id : Nat) (today : Int) : Nat × Bool :=
  let can_claim_today := !((rewardsFor db user_id).any (fun r => r.reward_date == today))
  match latestReward (rewardsFor db user_id) with
  | none => (0, true)
  | some l =>
    if l.reward_date == today then (l.streak_days, can_claim_today)
    else if l.reward_date == today - 1 then (l.streak_days, can_claim_today)
    else (0, can_claim_today)

/-- Response of GET /api/coins/daily-reward/status. -/
structure DailyRewardStatus where
  can_claim_today : Bool
  current_streak : Nat
  next_reward : ℚ
deriving DecidableEq, Repr

/-- get_daily_reward_status (backend/routers/coins.py): reports
next_reward = DAILY_REWARD_BASE + DAILY_REWARD_STREAK_BONUS * current_streak. -/
def get_daily_reward_status (db : DB) (user_id : Nat) (today : Int) : DailyRewardStatus :=
  let si := get_streak_info db user_id today
  { can_claim_today := si.2, current_streak := si.1,
    next_reward := DAILY_REWARD_BASE + DAILY_REWARD_STREAK_BONUS * (si.1 : ℚ) }

/-! ## Settlement (GameManager._end_game) -/

/-- The flat 5% rake constant rake_percentage = 0.05 of _end_game. -/
def rake_percentage : ℚ := 5 / 100

/-- The pot, rake and payout figures computed by _end_game. -/
structure SettlementFigures where
  total_pot : ℚ
  rake_amount : ℚ
  winner_payout : ℚ
deriving DecidableEq, Repr

/-- total_pot = stake * 2, rake_amount = total_pot * 0.05, and
winner_payout = total_pot - rake_amount when a winner exists, otherwise
the even split total_pot / 2 (which the source never credits). -/
def settlementFigures (stake : ℚ) (winner_id : Option Nat) : SettlementFigures :=
  let total_pot := stake * 2
  let rake_amount := total_pot * rake_percentage
  { total_pot := total_pot, rake_amount := rake_amount,
    winner_payout := if winner_id.isSome then total_pot - rake_amount else total_pot / 2 }

/-- The winner-row UPDATE of _end_game: wins + 1, games played + 1,
total_won_ton + payout. -/
def bumpWinner (u : UserRow) (payout : ℚ) : UserRow :=
  { u with total_wins := u.total_wins + 1,
           total_games_played := u.total_games_played + 1,
           total_won_ton := u.total_won_ton + payout }

/-- The loser-row UPDATE of _end_game: losses + 1, games played + 1. -/
def bumpLoser (u : UserRow) : UserRow :=
  { u with total_losses := u.total_losses + 1,
           total_games_played := u.total_games_played + 1 }

/-- The games-played-only UPDATE used for both sides of a draw. -/
def bumpDraw (u : UserRow) : UserRow :=
  { u with total_games_played := u.total_games_played + 1 }

/-- The user-statistics updates of GameManager._end_game: with a winner,
resolve the loser as the other player and issue the winner and loser
updates in sequence; on a draw bump both games-played counters. -/
def end_game_updates (stake : ℚ) (player1_id player2_id : Nat) (winner_id : Option Nat)
    (users : Nat → Option UserRow) : Nat → Option UserRow :=
  let fig := settlementFigures stake winner_id
  match winner_id with
  | some w =>
    let loser_id := if w = player1_id then player2_id else player1_id
    let afterWinner : Nat → Option UserRow :=
      fun x => if x = w then (users x).map (fun u => bumpWinner u fig.winner_payout) else users x
    fun x => if x = loser_id then (afterWinner x).map bumpLoser else afterWinner x
  | none =>
    let afterP1 : Nat → Option UserRow :=
      fun x => if x = player1_id then (users x).map bumpDraw else users x
    fun x => if x = player2_id then (afterP1 x).map bumpDraw else afterP1 x

/-! ## Session tokens (backend/utils/jwt.py) -/

/-- The claims a token of this system carries: an optional subject and an
expiration instant (Unix seconds). -/
structure TokenPayload where
  sub : Option String
  exp : Int
deriving DecidableEq, Repr

/-- A signed token: its payload plus the key and algorithm it was signed
with. The HMAC signature is modelled by recording the signing key and
algorithm name; signature verification succeeds exactly when both match
the verifier's, which abstracts an unforgeable MAC. -/
structure JWTToken where
  payload : TokenPayload
  sig_key : String
  sig_alg : String
deriving DecidableEq, Repr

/-- create_access_token: embed the subject, set exp to now plus the
supplied lifetime (default 1 hour = 3600 seconds), sign with the
configured secret and algorithm. -/
def create_access_token (secret alg : String) (sub : String)
    (expires_delta : Option Int) (now : Int) : JWTToken :=
  { payload := { sub := some sub, exp := now + expires_delta.getD 3600 },
    sig_key := secret, sig_alg := alg }

/-- The exceptions of jwt.decode distinguished by verify_token. -/
inductive JWTError
  | expiredSignature
  | invalidToken
deriving DecidableEq, Repr

/-- jwt.decode: reject a signature made with a different key or algorithm,
then reject an expired token, else return the payload. -/
def jwtDecode (token : JWTToken) (secret alg : String) (now : Int) :
    Except JWTError TokenPayload :=
  if token.sig_key = secret ∧ token.sig_alg = alg then
    if token.payload.exp ≤ now then Except.error JWTError.expiredSignature
    else Except.ok token.payload
  else Except.error JWTError.invalidToken

/-- The exceptions observable inside verify_token: the two PyJWT decode
errors plus the AttributeError raised by every attribute call on the
logger binding. Line 2 of backend/utils/jwt.py is `import logger`: no
module of that name exists in the tree or the standard library (every
other module uses `import logging` with getLogger), so in the running
program the import itself fails and the module never loads; even
granting a module object of that name, it has no warning, info or error
functions. -/
inductive JwtExc
  | expiredSignature
  | invalidToken
  | attributeError
deriving DecidableEq, Repr

/-- An attribute call logger.warning / logger.info / logger.error on the
bogus logger binding of backend/utils/jwt.py: it always raises. -/
def loggerCall (message : String) : Except JwtExc Unit :=
  Except.error JwtExc.attributeError

/-- The try suite of verify_token as the source writes it: decode, then
logger.warning and return None when the sub claim is missing, else
logger.info and return the subject. Both logging calls raise. -/
def verify_token_body (token : JWTToken) (secret alg : String) (now : Int) :
    Except JwtExc (Option String) :=
  match jwtDecode token secret alg now with
  | Except.error JWTError.expiredSignature => Except.error JwtExc.expiredSignature
  | Except.error JWTError.invalidToken => Except.error JwtExc.invalidToken
  | Except.ok payload =>
    match payload.sub with
    | none =>
      match loggerCall "Token verification failed: sub claim missing" with
      | Except.error e => Except.error e
      | Except.ok _ => Except.ok none
    | some user_id =>
      match loggerCall "Token verified successfully" with
      | Except.error e => Except.error e
      | Except.ok _ => Except.ok (some user_id)

/-- verify_token with its three except clauses: each handler calls
logger.warning or logger.error before returning None, and an exception
raised inside a handler is not caught by the later clauses of the same
try, so it propagates to the caller. The AttributeError raised inside
the try suite is caught by the generic handler, whose own logger.error
call raises again. -/
def verify_token (token : JWTToken) (secret alg : String) (now : Int) :
    Except JwtExc (Option String) :=
  match verify_token_body token secret alg now with
  | Except.ok r => Except.ok r
  | Except.error JwtExc.expiredSignature =>
    match loggerCall "Token verification failed: token expired" with
    | Except.error e => Except.error e
    | Except.ok _ => Except.ok none
  | Except.error JwtExc.invalidToken =>
    match loggerCall "Token verification failed: invalid token" with
    | Except.error e => Except.error e
    | Except.ok _ => Except.ok none
  | Except.error JwtExc.attributeError =>
    match loggerCall "Unexpected error during token verification" with
    | Except.error e => Except.error e
    | Except.ok _ => Except.ok none

/-! ## Push-connection handlers (backend/websockets/handlers.py) -/

/-- Name and positional-parameter bounds (excluding self, counting
defaults) of one GameManager method. -/
structure MethodSig where
  name : String
  min_args : Nat
  max_args : Nat
deriving DecidableEq, Repr

/-- The methods the GameManager class defines, with their arities,
transcribed from backend/managers/game_manager.py. There is no
remove_from_queue method. -/
def gameManagerMethods : List MethodSig :=
  [⟨"connect_user", 2, 2⟩, ⟨"disconnect_user", 1, 1⟩, ⟨"add_to_queue", 3, 3⟩,
   ⟨"_attempt_matchmaking", 0, 0⟩, ⟨"_create_game", 4, 4⟩, ⟨"handle_player_move", 3, 3⟩,
   ⟨"_end_game", 2, 2⟩, ⟨"_send_to_user", 2, 2⟩, ⟨"create_lobby", 3, 4⟩,
   ⟨"join_lobby", 2, 3⟩, ⟨"leave_lobby", 2, 2⟩, ⟨"set_lobby_ready", 3, 3⟩,
   ⟨"kick_from_lobby", 3, 3⟩, ⟨"_start_game_from_lobby", 1, 1⟩]

/-- The Python exceptions a method call can raise at binding time. -/
inductive PyError
  | typeError
  | attributeError
deriving DecidableEq, Repr

/-- Python attribute lookup plus call binding on the game_manager
singleton: a missing method raises AttributeError, a wrong positional
argument count raises TypeError, and only then does the body run. -/
def invokeManager (method : String) (argc : Nat) : Except PyError Unit :=
  match gameManagerMethods.find? (fun m => m.name == method) with
  | none => Except.error PyError.attributeError
  | some m =>
    if m.min_args ≤ argc ∧ argc ≤ m.max_args then Except.ok ()
    else Except.error PyError.typeError

/-- The outbound events relevant to the queue actions. -/
inductive WsEvent
  | queue_joined (message : String)
  | queue_left (message : String) (success : Bool)
  | errorEvent (message : String)
  | other (etype : String)
deriving DecidableEq, Repr

/-- The fields of an inbound queue-action message. -/
structure WsMessage where
  action : Option String
  game_type : Option String
  stake : Option ℚ
  currency : Option String
deriving DecidableEq, Repr

/-- GameWebSocketHandler.handle_join_queue: default the game type to rps,
require a stake, then call game_manager.add_to_queue with FOUR positional
arguments (user_id, game_type, stake, currency). The ok branch models what
the three-parameter body would do if the call bound. -/
def handle_join_queue (user_id : Nat) (data : WsMessage)
    (queue : List PendingMatchRequest) :
    Except PyError (List PendingMatchRequest × WsEvent) :=
  let game_type := data.game_type.getD "rps"
  match data.stake with
  | none => Except.ok (queue, WsEvent.errorEvent "Stake is required to join queue")
  | some stake =>
    match invokeManager "add_to_queue" 4 with
    | Except.error e => Except.error e
    | Except.ok _ =>
      Except.ok (queue ++ [{ user_id := user_id, game_type := game_type, stake := stake }],
        WsEvent.queue_joined "Joined queue")

/-- GameWebSocketHandler.handle_leave_queue: calls
game_manager.remove_from_queue(self.user_id), a method the manager does
not define. -/
def handle_leave_queue (user_id : Nat) (queue : List PendingMatchRequest) :
    Except PyError (List PendingMatchRequest × WsEvent) :=
  match invokeManager "remove_from_queue" 1 with
  | Except.error e => Except.error e
  | Except.ok _ => Except.ok (queue, WsEvent.queue_left "Left the queue" true)

/-- One trip of GameWebSocketHandler.handle_messages for the queue
actions: dispatch on the action field; any exception escaping a handler is
caught per message and reported as the generic error event, with the
in-memory wait queue left as it was. Actions other than the two queue
actions are outside this model and are mapped to an opaque event. -/
def processMessage (user_id : Nat) (data : WsMessage)
    (queue : List PendingMatchRequest) : List PendingMatchRequest × WsEvent :=
  let dispatched : Except PyError (List PendingMatchRequest × WsEvent) :=
    match data.action with
    | some "join_queue" => handle_join_queue user_id data queue
    | some "leave_queue" => handle_leave_queue user_id queue
    | _ => Except.ok (queue, WsEvent.other "unmodelled")
  match dispatched with
  | Except.ok r => r
  | Except.error _ => (queue, WsEvent.errorEvent "Internal server error")

/-! ## Handshake authentication (backend/services/auth_service.py) -/

/-- Value of one hex digit, or none; written over the code points
48-57 (digits), 65-70 (upper case) and 97-102 (lower case). -/
def hexDigitVal (c : Char) : Option Nat :=
  let n := c.toNat
  if 48 ≤ n ∧ n ≤ 57 then some (n - 48)
  else if 65 ≤ n ∧ n ≤ 70 then some (n - 55)
  else if 97 ≤ n ∧ n ≤ 102 then some (n - 87)
  else none

/-- urllib.parse.unquote on the character list, for ASCII percent escapes:
a percent followed by two hex digits decodes to that byte, anything else is
kept literally. -/
def percentDecodeChars : List Char → List Char
  | [] => []
  | '%' :: a :: b :: rest =>
    match hexDigitVal a, hexDigitVal b with
    | some hi, some lo => Char.ofNat (16 * hi + lo) :: percentDecodeChars rest
    | _, _ => '%' :: percentDecodeChars (a :: b :: rest)
  | c :: rest => c :: percentDecodeChars rest

/-- urllib.parse.unquote, restricted to ASCII escape sequences. -/
def unquote (s : String) : String := String.mk (percentDecodeChars s.data)

/-- init_data.split("&"): split the character list at every ampersand,
keeping empty parts, as the Python str.split does. -/
def splitOnAmp : List Char → List (List Char)
  | [] => [[]]
  | '&' :: rest => [] :: splitOnAmp rest
  | c :: rest =>
    match splitOnAmp rest with
    | [] => [[c]]
    | p :: ps => (c :: p) :: ps

/-- pair.split("=", 1): the part before the first equals sign and the rest;
none when the pair contains no equals sign (such pairs are skipped). -/
def splitOnFirstEq : List Char → Option (List Char × List Char)
  | [] => none
  | '=' :: rest => some ([], rest)
  | c :: rest =>
    match splitOnFirstEq rest with
    | some (k, v) => some (c :: k, v)
    | none => none

/-- params[key] = value on the Python dict, modelled as an association
list with overwrite. -/
def setParam (params : List (String × String)) (key value : String) :
    List (String × String) :=
  if params.any (fun p => p.1 == key) then
    params.map (fun p => if p.1 == key then (key, value) else p)
  else params ++ [(key, value)]

/-- The initData parsing loop of AuthService.authenticate_user: split on
ampersands, skip pairs without an equals sign, DROP the hash field, and
percent-decode every remaining value. The hash value itself is never
stored, compared or hashed. -/
def paramsOf (init_data : String) : List (String × String) :=
  (splitOnAmp init_data.data).foldl
    (fun params pair =>
      match splitOnFirstEq pair with
      | none => params
      | some (k, v) =>
        let key := String.mk k
        if key == "hash" then params
        else setParam params key (unquote (String.mk v)))
    []

/-- params[key] lookup. -/
def lookupParam (params : List (String × String)) (key : String) : Option String :=
  (params.find? (fun p => p.1 == key)).map (fun p => p.2)

/-- The key-colon sequence introducing the id member of the user JSON. -/
def jsonIdKey : List Char := ['"', 'i', 'd', '"', ':']

def digitsToNat (ds : List Char) : Nat :=
  ds.foldl (fun n c => 10 * n + (c.toNat - '0'.toNat)) 0

/-- Models json.loads(params["user"]).get("id") for the flat JSON user
objects of the platform, whose id member is a nonnegative integer literal
written without whitespace after the colon; a missing id and an unparsable
document are merged into the absent outcome, as both make the source
return an unsuccessful result. -/
def jsonGetId (s : String) : Option Int :=
  go s.data
where
  go : List Char → Option Int
    | [] => none
    | c :: rest =>
      if jsonIdKey.isPrefixOf (c :: rest) then
        let ds := ((c :: rest).drop 5).takeWhile (fun d => d.isDigit)
        if ds.isEmpty then none else some (Int.ofNat (digitsToNat ds))
      else go rest

/-- Outcome of AuthService.authenticate_user. On the success path the
source provisions the account, grants the welcome bonus and issues a
token, none of which can fail in this committed-state model, so the
embedding captures exactly the acceptance decision. -/
structure AuthResult where
  success : Bool
  message : String
  telegram_id : Option Int
deriving DecidableEq, Repr

/-- AuthService.authenticate_user: parse initData (discarding the hash
field), require a user parameter with a truthy id, and accept. No HMAC
digest is computed and the auth_date parameter is never read. -/
def authenticate_user (init_data : String) : AuthResult :=
  let params := paramsOf init_data
  match lookupParam params "user" with
  | none => { success := false, message := "User data not found in initData", telegram_id := none }
  | some userJson =>
    match jsonGetId userJson with
    | none => { success := false, message := "Telegram ID not found", telegram_id := none }
    | some tid =>
      if tid = 0 then
        { success := false, message := "Telegram ID not found", telegram_id := none }
      else
        { success := true, message := "Authentication successful", telegram_id := some tid }

/-! ## Theorems -/

/-- C8: for every game state in which both slots have moved,
check_round_end returns exactly the value of the fixed 9-entry table
(identical moves give a draw; rock beats scissors, paper beats rock,
scissors beats paper, won by the slot that played the beating move), and
it returns none whenever either slot has not yet moved. -/
theorem rps_round_resolution_matches_table (st : RPSState) :
    check_round_end st =
      match st.movesP1, st.movesP2 with
      | some m1, some m2 => some (specRoundTable m1 m2)
      | _, _ => none := by
  rcases st with ⟨s, m1, m2, a, b, r⟩
  cases m1 with
  | none => rfl
  | some v1 =>
    cases m2 with
    | none => rfl
    | some v2 => cases v1 <;> cases v2 <;> rfl

/-- C1: the authenticate operation accepts a handshake payload regardless
of the value of its hash field and regardless of its auth_date: the
payloads below differ only in the hash value (at most one of which can
equal the HMAC digest of the signed fields), and one carries an auth_date
of Unix second 0, older than any staleness bound; all are accepted.
The parse loop drops the hash field, so it is not even stored. -/
theorem authenticate_user_ignores_hash_and_auth_date :
    authenticate_user "user=%7B%22id%22%3A1%7D&hash=aaaa" =
      { success := true, message := "Authentication successful", telegram_id := some 1 } ∧
    authenticate_user "user=%7B%22id%22%3A1%7D&hash=bbbb" =
      { success := true, message := "Authentication successful", telegram_id := some 1 } ∧
    authenticate_user "user=%7B%22id%22%3A1%7D&auth_date=0&hash=aaaa" =
      { success := true, message := "Authentication successful", telegram_id := some 1 } ∧
    lookupParam (paramsOf "user=%7B%22id%22%3A1%7D&hash=aaaa") "hash" = none :=
  ⟨by decide, by decide, by decide, by decide⟩

/-- C9: claim_daily_reward discards the Bool returned by add_coins: with
no account row for user 1, the credit fails (add_coins returns false),
yet the claim reports success with the computed amount and streak while
neither a ledger entry nor a reward record is persisted. -/
theorem claim_daily_reward_ignores_failed_credit :
    (add_coins ⟨fun _ => none, [], []⟩ 1 100 "daily_bonus" (some "Daily reward") none).1
      = false ∧
    (claim_daily_reward ⟨fun _ => none, [], []⟩ 1 0).1 =
      { success := true, coins_earned := 100, streak_days := 1, message := "Claimed" } ∧
    (claim_daily_reward ⟨fun _ => none, [], []⟩ 1 0).2.transactions = [] ∧
    (claim_daily_reward ⟨fun _ => none, [], []⟩ 1 0).2.daily_rewards = [] ∧
    (claim_daily_reward ⟨fun _ => none, [], []⟩ 1 0).2.users 1 = none := by
  decide

/-- C10: the daily-reward status endpoint always reports
next_reward = 100 + 50 * current_streak; for an account whose latest
record is dated today with the capped streak 7 it reports 450, while the
claim on the following day computes streak min(7+1, 7) = 7 and credits
only 400. -/
theorem daily_status_next_reward_overstates_at_cap :
    (∀ db uid today, (get_daily_reward_status db uid today).next_reward =
        DAILY_REWARD_BASE + DAILY_REWARD_STREAK_BONUS *
          ((get_streak_info db uid today).1 : ℚ)) ∧
    (let u : UserRow := ⟨1, some 0, 0, 0, 0, 0⟩
     let db : DB := ⟨fun x => if x = 1 then some u else none, [], [⟨1, 10, 400, 7⟩]⟩
     (get_daily_reward_status db 1 10).next_reward = 450 ∧
     (claim_daily_reward db 1 11).1.coins_earned = 400 ∧
     (claim_daily_reward db 1 11).1.streak_days = 7 ∧
     (400 : ℚ) < 450) := by
  constructor
  · intro db uid today
    rfl
  · refine ⟨?_, ?_, ?_, by norm_num⟩
    · norm_num [get_daily_reward_status, get_streak_info, rewardsFor, latestReward,
        DAILY_REWARD_BASE, DAILY_REWARD_STREAK_BONUS]
    · norm_num [claim_daily_reward, rewardsFor, latestReward, MAX_STREAK_BONUS,
        DAILY_REWARD_BASE, DAILY_REWARD_STREAK_BONUS]
    · norm_num [claim_daily_reward, rewardsFor, latestReward, MAX_STREAK_BONUS,
        DAILY_REWARD_BASE, DAILY_REWARD_STREAK_BONUS]

/-- C6: verification never succeeds and always raises to its caller:
every path of verify_token calls an attribute of the bogus logger
binding (`import logger` names a module that exists nowhere), so the
success and missing-sub paths raise inside the try suite, the generic
except handler re-raises from its own logger.error call, and the two
jwt except handlers raise from logger.warning with nothing left to
catch the exception. In particular a token created with the correct
secret and an unexpired exp does not verify to its embedded account id,
and the concrete conjunct evaluates exactly that failing input. In the
actual tree the situation is still worse: the import itself fails, so
the module never loads. -/
theorem verify_token_always_raises :
    (∀ token secret alg now,
        verify_token token secret alg now = Except.error JwtExc.attributeError) ∧
    verify_token (create_access_token "s" "HS256" "42" (some 86400) 0) "s" "HS256" 1000
      = Except.error JwtExc.attributeError := by
  have h1 : ∀ token secret alg now,
      verify_token token secret alg now = Except.error JwtExc.attributeError := by
    intro token secret alg now
    unfold verify_token verify_token_body
    cases h : jwtDecode token secret alg now with
    | error e => cases e <;> rfl
    | ok payload =>
      obtain ⟨s, e⟩ := payload
      cases s <;> rfl
  exact ⟨h1, h1 _ _ _ _⟩

/-- C2: the handler calls add_to_queue with four positional arguments
while the manager method takes three, and calls remove_from_queue which
does not exist; both calls raise, the per-message handler catches the
exception, the wait queue is unchanged, and the client receives the
generic error event instead of queue_joined (or queue_left). -/
theorem queue_actions_always_fail :
    invokeManager "add_to_queue" 4 = Except.error PyError.typeError ∧
    invokeManager "remove_from_queue" 1 = Except.error PyError.attributeError ∧
    (∀ uid data queue s, data.action = some "join_queue" → data.stake = some s →
        processMessage uid data queue = (queue, WsEvent.errorEvent "Internal server error")) ∧
    (∀ uid data queue, data.action = some "join_queue" →
        (processMessage uid data queue).1 = queue ∧
        ∀ m, (processMessage uid data queue).2 ≠ WsEvent.queue_joined m) ∧
    (∀ uid data queue, data.action = some "leave_queue" →
        processMessage uid data queue = (queue, WsEvent.errorEvent "Internal server error")) := by
  have h4 : invokeManager "add_to_queue" 4 = Except.error PyError.typeError := rfl
  have h1 : invokeManager "remove_from_queue" 1 = Except.error PyError.attributeError := rfl
  refine ⟨h4, h1, ?_, ?_, ?_⟩
  · intro uid data queue s ha hs
    simp [processMessage, handle_join_queue, ha, hs, h4]
  · intro uid data queue ha
    cases hs : data.stake with
    | none =>
      constructor
      · simp [processMessage, handle_join_queue, ha, hs]
      · intro m
        simp [processMessage, handle_join_queue, ha, hs]
    | some s =>
      constructor
      · simp [processMessage, handle_join_queue, ha, hs, h4]
      · intro m
        simp [processMessage, handle_join_queue, ha, hs, h4]
  · intro uid data queue ha
    simp [processMessage, handle_leave_queue, ha, h1]

/-- Witness for queue_actions_always_fail at concrete messages. -/
theorem queue_actions_always_fail_witness :
    processMessage 7 ⟨some "join_queue", none, some 5, none⟩ []
      = ([], WsEvent.errorEvent "Internal server error") ∧
    processMessage 7 ⟨some "leave_queue", none, none, none⟩ []
      = ([], WsEvent.errorEvent "Internal server error") :=
  ⟨queue_actions_always_fail.2.2.1 7 ⟨some "join_queue", none, some 5, none⟩ [] 5 rfl rfl,
   queue_actions_always_fail.2.2.2.2 7 ⟨some "leave_queue", none, none, none⟩ [] rfl⟩

/-- The inner scan of the matchmaking loop picks the first compatible
request: it matches the anchor key, every skipped request fails the key,
and the queue decomposes as skipped ++ partner :: remaining. -/
theorem findFirstMatch_spec (anchor : PendingMatchRequest) :
    ∀ (q skipped remaining : List PendingMatchRequest) (partner : PendingMatchRequest),
      findFirstMatch anchor q = some (skipped, partner, remaining) →
      matchesAnchor anchor partner = true ∧
      (∀ r ∈ skipped, matchesAnchor anchor r = false) ∧
      q = skipped ++ partner :: remaining := by
  intro q
  induction q with
  | nil =>
    intro skipped remaining partner h
    simp [findFirstMatch] at h
  | cons x rest ih =>
    intro skipped remaining partner h
    rw [findFirstMatch] at h
    by_cases hm : matchesAnchor anchor x
    · rw [if_pos hm] at h
      simp only [Option.some.injEq, Prod.mk.injEq] at h
      obtain ⟨h1, h2, h3⟩ := h
      subst h1; subst h2; subst h3
      exact ⟨hm, by simp, rfl⟩
    · rw [if_neg hm] at h
      cases hfr : findFirstMatch anchor rest with
      | none => rw [hfr] at h; cases h
      | some t =>
        obtain ⟨sk2, p2, rem2⟩ := t
        rw [hfr] at h
        simp only [Option.some.injEq, Prod.mk.injEq] at h
        obtain ⟨h1, h2, h3⟩ := h
        subst h1; subst h2; subst h3
        obtain ⟨hp, hsk, hq⟩ := ih sk2 rem2 p2 hfr
        refine ⟨hp, ?_, by rw [hq]; rfl⟩
        intro r hr
        rcases List.mem_cons.mp hr with hr1 | hr2
        · subst hr1
          simp only [Bool.not_eq_true] at hm
          exact hm
        · exact hsk r hr2

/-- Unfolding equation of the matchmaking loop on a hit. -/
theorem attemptMatchmaking_hit (anchor : PendingMatchRequest)
    (q skipped remaining : List PendingMatchRequest) (partner : PendingMatchRequest)
    (h : findFirstMatch anchor q = some (skipped, partner, remaining)) :
    attemptMatchmaking (anchor :: q) =
      ((anchor, partner) :: (attemptMatchmaking (remaining ++ skipped)).1,
       (attemptMatchmaking (remaining ++ skipped)).2) := by
  cases q with
  | nil => simp [findFirstMatch] at h
  | cons y ys =>
    rw [attemptMatchmaking]
    · split
      · rename_i sk p rem hf
        rw [h] at hf
        simp only [Option.some.injEq, Prod.mk.injEq] at hf
        obtain ⟨h1, h2, h3⟩ := hf
        subst h1; subst h2; subst h3
        rfl
      · rename_i hf
        rw [h] at hf
        cases hf
    · intro hc
      cases hc

/-- Unfolding equation of the matchmaking loop on a full scan without a
hit: the anchor is reinserted at the back and pairing stops. -/
theorem attemptMatchmaking_miss (anchor : PendingMatchRequest)
    (q : List PendingMatchRequest) (h : findFirstMatch anchor q = none) :
    attemptMatchmaking (anchor :: q) = ([], q ++ [anchor]) := by
  cases q with
  | nil => simp [attemptMatchmaking]
  | cons y ys =>
    rw [attemptMatchmaking]
    · split
      · rename_i sk p rem hf
        rw [h] at hf
        cases hf
      · rfl
    · intro hc
      cases hc

/-- C7: one pairing invocation matches the dequeued anchor with the first
later request of identical game type and stake, removes exactly those two
and continues on remaining ++ skipped, the skipped requests kept in their
original relative order; when the full scan finds no compatible request
the anchor is reinserted and pairing stops, so a mismatched request stays
queued (two compatible requests and one with a different key produce one
pair and leave the mismatched request queued). -/
theorem matchmaking_pairing :
    (∀ anchor q skipped remaining partner,
        findFirstMatch anchor q = some (skipped, partner, remaining) →
        matchesAnchor anchor partner = true ∧
        (∀ r ∈ skipped, matchesAnchor anchor r = false) ∧
        q = skipped ++ partner :: remaining ∧
        attemptMatchmaking (anchor :: q) =
          ((anchor, partner) :: (attemptMatchmaking (remaining ++ skipped)).1,
           (attemptMatchmaking (remaining ++ skipped)).2)) ∧
    (∀ anchor q, findFirstMatch anchor q = none →
        attemptMatchmaking (anchor :: q) = ([], q ++ [anchor])) ∧
    (∀ r1 r2 r3, matchesAnchor r1 r2 = true → matchesAnchor r1 r3 = false →
        attemptMatchmaking [r1, r2, r3] = ([(r1, r2)], [r3])) := by
  refine ⟨?_, ?_, ?_⟩
  · intro anchor q skipped remaining partner h
    obtain ⟨hp, hsk, hq⟩ := findFirstMatch_spec anchor q skipped remaining partner h
    exact ⟨hp, hsk, hq, attemptMatchmaking_hit anchor q skipped remaining partner h⟩
  · exact attemptMatchmaking_miss
  · intro r1 r2 r3 h2 h3
    have hf : findFirstMatch r1 [r2, r3] = some ([], r2, [r3]) := by
      simp [findFirstMatch, h2]
    rw [attemptMatchmaking_hit r1 [r2, r3] [] [r3] r2 hf]
    simp [attemptMatchmaking]

/-- Witness for matchmaking_pairing at concrete requests. -/
theorem matchmaking_pairing_witness :
    (matchesAnchor ⟨1, "rps", 10⟩ ⟨2, "rps", 10⟩ = true ∧
     (∀ r ∈ ([] : List PendingMatchRequest), matchesAnchor ⟨1, "rps", 10⟩ r = false) ∧
     ([⟨2, "rps", 10⟩] : List PendingMatchRequest) = [] ++ ⟨2, "rps", 10⟩ :: [] ∧
     attemptMatchmaking [⟨1, "rps", 10⟩, ⟨2, "rps", 10⟩] =
       ((⟨1, "rps", 10⟩, ⟨2, "rps", 10⟩) :: (attemptMatchmaking ([] ++ [])).1,
        (attemptMatchmaking ([] ++ [])).2)) ∧
    attemptMatchmaking [⟨1, "rps", 10⟩, ⟨3, "rps", 5⟩] =
      ([], [⟨3, "rps", 5⟩] ++ [⟨1, "rps", 10⟩]) ∧
    attemptMatchmaking [⟨1, "rps", 10⟩, ⟨2, "rps", 10⟩, ⟨3, "rps", 5⟩] =
      ([(⟨1, "rps", 10⟩, ⟨2, "rps", 10⟩)], [⟨3, "rps", 5⟩]) :=
  ⟨matchmaking_pairing.1 ⟨1, "rps", 10⟩ [⟨2, "rps", 10⟩] [] [] ⟨2, "rps", 10⟩ rfl,
   matchmaking_pairing.2.1 ⟨1, "rps", 10⟩ [⟨3, "rps", 5⟩] rfl,
   matchmaking_pairing.2.2 ⟨1, "rps", 10⟩ ⟨2, "rps", 10⟩ ⟨3, "rps", 5⟩ rfl rfl⟩

/-- Appending an element kept by the filter makes it the last filtered
element. -/
theorem getLast_filter_concat_true {α} (l : List α) (f : α → Bool) (x : α)
    (hx : f x = true) : ((l ++ [x]).filter f).getLast? = some x := by
  rw [List.filter_append]
  simp [List.filter, hx]

/-- Appending an element dropped by the filter leaves the last filtered
element unchanged. -/
theorem getLast_filter_concat_false {α} (l : List α) (f : α → Bool) (x : α)
    (hx : f x = false) : ((l ++ [x]).filter f).getLast? = (l.filter f).getLast? := by
  rw [List.filter_append]
  simp [List.filter, hx]

/-- Shape of add_coins when the account row is missing. -/
theorem add_coins_none (db : DB) (uid2 : Nat) (amt : ℚ) (ttype : String)
    (d : Option String) (g : Option Nat) (hu : db.users uid2 = none) :
    add_coins db uid2 amt ttype d g = (false, db) := by
  unfold add_coins
  rw [hu]

/-- Shape of add_coins when the account row exists. -/
theorem add_coins_some (db : DB) (uid2 : Nat) (amt : ℚ) (ttype : String)
    (d : Option String) (g : Option Nat) (user : UserRow)
    (hu : db.users uid2 = some user) :
    add_coins db uid2 amt ttype d g =
      (true,
       { users := fun u => if u = uid2 then
             (db.users u).map (fun row =>
               { row with balance_coins := some (user.balance_coins.getD 0 + amt) })
           else db.users u,
         transactions := db.transactions ++
           [{ user_id := uid2, amount := amt, transaction_type := ttype,
              description := d, related_game_id := g,
              balance_before := user.balance_coins.getD 0,
              balance_after := user.balance_coins.getD 0 + amt }],
         daily_rewards := db.daily_rewards }) := by
  unfold add_coins
  rw [hu]
  rfl

/-- Shape of deduct_coins when the account row is missing. -/
theorem deduct_coins_none (db : DB) (uid2 : Nat) (amt : ℚ) (ttype : String)
    (d : Option String) (g : Option Nat) (hu : db.users uid2 = none) :
    deduct_coins db uid2 amt ttype d g = (false, db) := by
  unfold deduct_coins
  rw [hu]

/-- Shape of deduct_coins when the account row exists: failure without
mutation on an insufficient balance, else the commit. -/
theorem deduct_coins_some (db : DB) (uid2 : Nat) (amt : ℚ) (ttype : String)
    (d : Option String) (g : Option Nat) (user : UserRow)
    (hu : db.users uid2 = some user) :
    deduct_coins db uid2 amt ttype d g =
      (if user.balance_coins.getD 0 < amt then (false, db)
       else (true,
         { users := fun u => if u = uid2 then
               (db.users u).map (fun row =>
                 { row with balance_coins := some (user.balance_coins.getD 0 - amt) })
             else db.users u,
           transactions := db.transactions ++
             [{ user_id := uid2, amount := -amt, transaction_type := ttype,
                description := d, related_game_id := g,
                balance_before := user.balance_coins.getD 0,
                balance_after := user.balance_coins.getD 0 - amt }],
           daily_rewards := db.daily_rewards })) := by
  unfold deduct_coins
  rw [hu]
  rfl

/-- Writing a balance update together with a ledger entry whose
balance_after equals the new stored balance preserves ledger consistency
of every account: this is the shared commit shape of add_coins and
deduct_coins. -/
theorem ledger_write_preserves (db : DB) (uid uid2 : Nat) (newbal : ℚ)
    (user : UserRow) (tx : CoinTransaction) (hu : db.users uid2 = some user)
    (htxu : tx.user_id = uid2) (htxa : tx.balance_after = newbal)
    (h : ledgerConsistent db uid) :
    ledgerConsistent
      { users := fun u => if u = uid2 then
            (db.users u).map (fun row => { row with balance_coins := some newbal })
          else db.users u,
        transactions := db.transactions ++ [tx],
        daily_rewards := db.daily_rewards } uid := by
  intro t hlast
  have hlast2 : ((db.transactions ++ [tx]).filter
      (fun s => s.user_id == uid)).getLast? = some t := hlast
  by_cases he : uid2 = uid
  · subst he
    have hf : (fun s : CoinTransaction => s.user_id == uid2) tx = true := by
      show (tx.user_id == uid2) = true
      rw [htxu]
      exact beq_self_eq_true uid2
    rw [getLast_filter_concat_true db.transactions _ tx hf] at hlast2
    have ht : tx = t := Option.some.inj hlast2
    subst ht
    show ((if uid2 = uid2 then
        (db.users uid2).map (fun row => { row with balance_coins := some newbal })
      else db.users uid2).map (fun u => u.balance_coins.getD 0)) = some tx.balance_after
    rw [if_pos rfl, hu, htxa]
    rfl
  · have hf2 : (fun s : CoinTransaction => s.user_id == uid) tx = false := by
      show (tx.user_id == uid) = false
      rw [htxu]
      exact beq_eq_false_iff_ne.mpr he
    rw [getLast_filter_concat_false db.transactions _ tx hf2] at hlast2
    have hdb := h t hlast2
    show ((if uid = uid2 then
        (db.users uid).map (fun row => { row with balance_coins := some newbal })
      else db.users uid).map (fun u => u.balance_coins.getD 0)) = some t.balance_after
    rw [if_neg (fun hc => he hc.symm)]
    exact hdb

/-- One add or deduct preserves ledger consistency of every account. -/
theorem applyOp_preserves_ledgerConsistent (uid : Nat) (db : DB) (op : LedgerOp)
    (h : ledgerConsistent db uid) : ledgerConsistent (applyOp db op) uid := by
  cases op with
  | add uid2 amt ttype =>
    show ledgerConsistent (add_coins db uid2 amt ttype none none).2 uid
    cases hu : db.users uid2 with
    | none =>
      rw [add_coins_none db uid2 amt ttype none none hu]
      exact h
    | some user =>
      rw [add_coins_some db uid2 amt ttype none none user hu]
      exact ledger_write_preserves db uid uid2 _ user _ hu rfl rfl h
  | deduct uid2 amt ttype =>
    show ledgerConsistent (deduct_coins db uid2 amt ttype none none).2 uid
    cases hu : db.users uid2 with
    | none =>
      rw [deduct_coins_none db uid2 amt ttype none none hu]
      exact h
    | some user =>
      rw [deduct_coins_some db uid2 amt ttype none none user hu]
      by_cases hlt : user.balance_coins.getD 0 < amt
      · rw [if_pos hlt]
        exact h
      · rw [if_neg hlt]
        exact ledger_write_preserves db uid uid2 _ user _ hu rfl rfl h

/-- A whole sequence of adds and deducts preserves ledger consistency. -/
theorem applyOps_preserves_ledgerConsistent (uid : Nat) (ops : List LedgerOp) :
    ∀ db : DB, ledgerConsistent db uid → ledgerConsistent (applyOps db ops) uid := by
  induction ops with
  | nil => intro db h; exact h
  | cons op rest ih =>
    intro db h
    exact ih (applyOp db op) (applyOp_preserves_ledgerConsistent uid db op h)

/-- Every ledger entry written by one add or deduct satisfies
balance_after = balance_before + amount with the signed amount. -/
theorem applyOp_new_entries (db : DB) (op : LedgerOp) :
    ∀ t ∈ (applyOp db op).transactions,
      t ∈ db.transactions ∨ t.balance_after = t.balance_before + t.amount := by
  cases op with
  | add uid2 amt ttype =>
    intro t ht
    have ht2 : t ∈ (add_coins db uid2 amt ttype none none).2.transactions := ht
    cases hu : db.users uid2 with
    | none =>
      rw [add_coins_none db uid2 amt ttype none none hu] at ht2
      exact Or.inl ht2
    | some user =>
      rw [add_coins_some db uid2 amt ttype none none user hu] at ht2
      rcases List.mem_append.mp ht2 with h1 | h2
      · exact Or.inl h1
      · right
        rw [List.mem_singleton.mp h2]
  | deduct uid2 amt ttype =>
    intro t ht
    have ht2 : t ∈ (deduct_coins db uid2 amt ttype none none).2.transactions := ht
    cases hu : db.users uid2 with
    | none =>
      rw [deduct_coins_none db uid2 amt ttype none none hu] at ht2
      exact Or.inl ht2
    | some user =>
      rw [deduct_coins_some db uid2 amt ttype none none user hu] at ht2
      by_cases hlt : user.balance_coins.getD 0 < amt
      · rw [if_pos hlt] at ht2
        exact Or.inl ht2
      · rw [if_neg hlt] at ht2
        rcases List.mem_append.mp ht2 with h1 | h2
        · exact Or.inl h1
        · right
          rw [List.mem_singleton.mp h2]
          show user.balance_coins.getD 0 - amt = user.balance_coins.getD 0 + -amt
          ring

/-- C3: every ledger entry written by add_coins or deduct_coins satisfies
balance_after = balance_before + (signed) amount; after any sequence of
add and deduct operations the stored account balance equals the
balance_after of the most recent entry of that account; and a deduct
whose amount exceeds the current balance performs no mutation and
reports failure. -/
theorem coin_ledger_invariant :
    (∀ db op t, t ∈ (applyOp db op).transactions →
        t ∈ db.transactions ∨ t.balance_after = t.balance_before + t.amount) ∧
    (∀ uid ops db, ledgerConsistent db uid →
        ledgerConsistent (applyOps db ops) uid) ∧
    (∀ db uid amount ttype d g user, db.users uid = some user →
        user.balance_coins.getD 0 < amount →
        deduct_coins db uid amount ttype d g = (false, db)) := by
  refine ⟨applyOp_new_entries, ?_, ?_⟩
  · intro uid ops db h
    exact applyOps_preserves_ledgerConsistent uid ops db h
  · intro db uid amount ttype d g user hu hlt
    rw [deduct_coins_some db uid amount ttype d g user hu, if_pos hlt]

/-- Witness for coin_ledger_invariant: an account with balance 5, one
credit of 5, then the consistency of the resulting state, and a rejected
debit of 10. -/
theorem coin_ledger_invariant_witness :
    (({ user_id := 1, amount := 5, transaction_type := "admin_gift",
        description := none, related_game_id := none,
        balance_before := 0, balance_after := 5 } : CoinTransaction)
        ∈ (⟨fun x => if x = 1 then some ⟨1, some 0, 0, 0, 0, 0⟩ else none, [], []⟩ : DB).transactions ∨
      (5 : ℚ) = 0 + 5) ∧
    ledgerConsistent
      (applyOps ⟨fun x => if x = 1 then some ⟨1, some 0, 0, 0, 0, 0⟩ else none, [], []⟩
        [LedgerOp.add 1 5 "admin_gift", LedgerOp.deduct 1 2 "game_stake"]) 1 ∧
    deduct_coins ⟨fun x => if x = 1 then some ⟨1, some 5, 0, 0, 0, 0⟩ else none, [], []⟩
        1 10 "game_stake" none none
      = (false, ⟨fun x => if x = 1 then some ⟨1, some 5, 0, 0, 0, 0⟩ else none, [], []⟩) :=
  ⟨coin_ledger_invariant.1
      ⟨fun x => if x = 1 then some ⟨1, some 0, 0, 0, 0, 0⟩ else none, [], []⟩
      (LedgerOp.add 1 5 "admin_gift")
      { user_id := 1, amount := 5, transaction_type := "admin_gift",
        description := none, related_game_id := none,
        balance_before := 0, balance_after := 5 }
      (by norm_num [applyOp, add_coins, DB.setUserBalance]),
   coin_ledger_invariant.2.1 1
      [LedgerOp.add 1 5 "admin_gift", LedgerOp.deduct 1 2 "game_stake"]
      ⟨fun x => if x = 1 then some ⟨1, some 0, 0, 0, 0, 0⟩ else none, [], []⟩
      (fun t ht => by simp [txFor] at ht),
   coin_ledger_invariant.2.2
      ⟨fun x => if x = 1 then some ⟨1, some 5, 0, 0, 0, 0⟩ else none, [], []⟩
      1 10 "game_stake" none none ⟨1, some 5, 0, 0, 0, 0⟩ rfl (by norm_num)⟩

/-- C5: a claim on a day that already has a reward record fails and
mutates nothing; otherwise the streak continues as min(previous + 1, 7)
when the latest record is dated exactly yesterday and restarts at 1
otherwise; the coins earned are 100 at streak 1 and 100 + 50 * (streak
minus 1) beyond; one day after a streak-4 claim the result is 300 coins
at streak 5, credited through add_coins with type daily_bonus. -/
theorem daily_reward_claim_arithmetic :
    (∀ db uid today,
        (rewardsFor db uid).any (fun r => r.reward_date == today) = true →
        claim_daily_reward db uid today =
          ({ success := false, coins_earned := 0, streak_days := 0,
             message := "Already claimed today" }, db)) ∧
    (∀ db uid today l,
        (rewardsFor db uid).any (fun r => r.reward_date == today) = false →
        latestReward (rewardsFor db uid) = some l → l.reward_date = today - 1 →
        (claim_daily_reward db uid today).1.streak_days = min (l.streak_days + 1) 7 ∧
        (claim_daily_reward db uid today).1.coins_earned =
          (if 1 < min (l.streak_days + 1) 7 then
             (100 : ℚ) + 50 * ((min (l.streak_days + 1) 7 - 1 : Nat) : ℚ)
           else 100)) ∧
    (∀ db uid today,
        (rewardsFor db uid).any (fun r => r.reward_date == today) = false →
        (∀ l, latestReward (rewardsFor db uid) = some l → l.reward_date ≠ today - 1) →
        (claim_daily_reward db uid today).1.streak_days = 1 ∧
        (claim_daily_reward db uid today).1.coins_earned = 100) ∧
    (let u : UserRow := ⟨1, some 400, 0, 0, 0, 0⟩
     let db : DB := ⟨fun x => if x = 1 then some u else none, [], [⟨1, 6, 250, 4⟩]⟩
     let r := claim_daily_reward db 1 7
     r.1 = { success := true, coins_earned := 300, streak_days := 5,
             message := "Claimed" } ∧
     r.2.transactions =
       [{ user_id := 1, amount := 300, transaction_type := "daily_bonus",
          description := some "Daily reward", related_game_id := none,
          balance_before := 400, balance_after := 700 }] ∧
     r.2.daily_rewards = [⟨1, 6, 250, 4⟩, ⟨1, 7, 300, 5⟩]) := by
  refine ⟨?_, ?_, ?_, ?_⟩
  · intro db uid today h
    unfold claim_daily_reward
    rw [if_pos h]
  · intro db uid today l h1 h2 h3
    constructor <;>
      simp [claim_daily_reward, h1, h2, h3, MAX_STREAK_BONUS,
        DAILY_REWARD_BASE, DAILY_REWARD_STREAK_BONUS]
  · intro db uid today h1 h2
    cases hl : latestReward (rewardsFor db uid) with
    | none =>
      constructor <;>
        simp [claim_daily_reward, h1, hl, DAILY_REWARD_BASE]
    | some l =>
      have hne := h2 l hl
      have hbeq : (l.reward_date == today - 1) = false := beq_eq_false_iff_ne.mpr hne
      constructor <;>
        simp [claim_daily_reward, h1, hl, hbeq, DAILY_REWARD_BASE]
  · refine ⟨?_, ?_, ?_⟩ <;>
      norm_num [claim_daily_reward, rewardsFor, latestReward, MAX_STREAK_BONUS,
        DAILY_REWARD_BASE, DAILY_REWARD_STREAK_BONUS, add_coins, DB.setUserBalance]

/-- Witness for daily_reward_claim_arithmetic: a same-day repeat claim, a
day-after-streak-4 claim and a first-ever claim. -/
theorem daily_reward_claim_arithmetic_witness :
    claim_daily_reward ⟨fun _ => none, [], [⟨1, 0, 100, 1⟩]⟩ 1 0 =
      ({ success := false, coins_earned := 0, streak_days := 0,
         message := "Already claimed today" },
       ⟨fun _ => none, [], [⟨1, 0, 100, 1⟩]⟩) ∧
    ((claim_daily_reward ⟨fun _ => none, [], [⟨1, 6, 250, 4⟩]⟩ 1 7).1.streak_days
        = min (4 + 1) 7 ∧
     (claim_daily_reward ⟨fun _ => none, [], [⟨1, 6, 250, 4⟩]⟩ 1 7).1.coins_earned
        = (if 1 < min (4 + 1) 7 then
             (100 : ℚ) + 50 * ((min (4 + 1) 7 - 1 : Nat) : ℚ)
           else 100)) ∧
    ((claim_daily_reward ⟨fun _ => none, [], []⟩ 1 0).1.streak_days = 1 ∧
     (claim_daily_reward ⟨fun _ => none, [], []⟩ 1 0).1.coins_earned = 100) :=
  ⟨daily_reward_claim_arithmetic.1 ⟨fun _ => none, [], [⟨1, 0, 100, 1⟩]⟩ 1 0 rfl,
   daily_reward_claim_arithmetic.2.1 ⟨fun _ => none, [], [⟨1, 6, 250, 4⟩]⟩ 1 7
     ⟨1, 6, 250, 4⟩ rfl rfl (by decide),
   daily_reward_claim_arithmetic.2.2.1 ⟨fun _ => none, [], []⟩ 1 0 rfl
     (fun l hl => nomatch hl)⟩

/-- C4: ending a session with a winner computes total_pot = stake * 2,
rake_amount = total_pot * 5 percent, winner_payout = total_pot minus
rake; the winner row gains one win, one game played and winner_payout of
cumulative native winnings, the loser row gains one loss and one game
played with its cumulative winnings untouched; at stake 10 the figures
are pot 20, rake 1, payout 19. -/
theorem settlement_with_winner (stake : ℚ) (p1 p2 w l : Nat)
    (u_w u_l : UserRow) (users : Nat → Option UserRow)
    (hwl : w = p1 ∧ l = p2 ∨ w = p2 ∧ l = p1) (hne : p1 ≠ p2)
    (huw : users w = some u_w) (hul : users l = some u_l) :
    (settlementFigures stake (some w)).total_pot = stake * 2 ∧
    (settlementFigures stake (some w)).rake_amount = stake * 2 * (5 / 100) ∧
    (settlementFigures stake (some w)).winner_payout
      = stake * 2 - stake * 2 * (5 / 100) ∧
    end_game_updates stake p1 p2 (some w) users w =
      some { u_w with total_wins := u_w.total_wins + 1,
                      total_games_played := u_w.total_games_played + 1,
                      total_won_ton :=
                        u_w.total_won_ton + (stake * 2 - stake * 2 * (5 / 100)) } ∧
    end_game_updates stake p1 p2 (some w) users l =
      some { u_l with total_losses := u_l.total_losses + 1,
                      total_games_played := u_l.total_games_played + 1 } ∧
    (end_game_updates stake p1 p2 (some w) users l).map UserRow.total_won_ton
      = some u_l.total_won_ton ∧
    settlementFigures 10 (some w) =
      { total_pot := 20, rake_amount := 1, winner_payout := 19 } := by
  have hfig : settlementFigures stake (some w) =
      { total_pot := stake * 2, rake_amount := stake * 2 * (5 / 100),
        winner_payout := stake * 2 - stake * 2 * (5 / 100) } := by
    simp [settlementFigures, rake_percentage]
  have hlw : l ≠ w := by
    rcases hwl with ⟨hw, hl⟩ | ⟨hw, hl⟩ <;> subst hw <;> subst hl
    · exact fun hc => hne hc.symm
    · exact hne
  have hupdW : end_game_updates stake p1 p2 (some w) users w =
      some (bumpWinner u_w (stake * 2 - stake * 2 * (5 / 100))) := by
    rcases hwl with ⟨hw, hl⟩ | ⟨hw, hl⟩ <;> subst hw <;> subst hl <;>
      simp [end_game_updates, hfig, huw, hne, hne.symm]
  have hupdL : end_game_updates stake p1 p2 (some w) users l =
      some (bumpLoser u_l) := by
    rcases hwl with ⟨hw, hl⟩ | ⟨hw, hl⟩ <;> subst hw <;> subst hl <;>
      simp [end_game_updates, hfig, hul, hne, hne.symm]
  refine ⟨by rw [hfig], by rw [hfig], by rw [hfig], ?_, ?_, ?_, ?_⟩
  · rw [hupdW]; rfl
  · rw [hupdL]; rfl
  · rw [hupdL]; rfl
  · norm_num [settlementFigures, rake_percentage]

/-- Witness for settlement_with_winner: stake 10, players 1 and 2,
player 1 wins. -/
theorem settlement_with_winner_witness :
    (let uW : UserRow := ⟨1, some 0, 3, 1, 2, 7⟩
     let uL : UserRow := ⟨2, some 0, 5, 2, 3, 11⟩
     let users : Nat → Option UserRow :=
       fun x => if x = 1 then some uW else if x = 2 then some uL else none
     (settlementFigures 10 (some 1)).total_pot = 10 * 2 ∧
     (settlementFigures 10 (some 1)).rake_amount = 10 * 2 * (5 / 100) ∧
     (settlementFigures 10 (some 1)).winner_payout
       = 10 * 2 - 10 * 2 * (5 / 100) ∧
     end_game_updates 10 1 2 (some 1) users 1 =
       some { uW with total_wins := uW.total_wins + 1,
                      total_games_played := uW.total_games_played + 1,
                      total_won_ton :=
                        uW.total_won_ton + (10 * 2 - 10 * 2 * (5 / 100)) } ∧
     end_game_updates 10 1 2 (some 1) users 2 =
       some { uL with total_losses := uL.total_losses + 1,
                      total_games_played := uL.total_games_played + 1 } ∧
     (end_game_updates 10 1 2 (some 1) users 2).map UserRow.total_won_ton
       = some uL.total_won_ton ∧
     settlementFigures 10 (some 1) =
       { total_pot := 20, rake_amount := 1, winner_payout := 19 }) :=
  settlement_with_winner 10 1 2 1 2 ⟨1, some 0, 3, 1, 2, 7⟩ ⟨2, some 0, 5, 2, 3, 11⟩
    (fun x => if x = 1 then some ⟨1, some 0, 3, 1, 2, 7⟩
      else if x = 2 then some ⟨2, some 0, 5, 2, 3, 11⟩ else none)
    (Or.inl ⟨rfl, rfl⟩) (by decide) rfl rfl
